import Mathlib

/-!
Verification development for the paroli-daemon repository.

The daemon (source file `src/unnamed/part_000`, together with
`src/paroli-daemon/paroli_daemon.cpp` and `.hpp`) reads line-delimited JSON
synthesis requests, dispatches them through a worker pool, and emits audio
as raw PCM, WAV or Ogg Opus, whole-buffer or as length-prefixed frames.

External collaborators (the piper engine, nlohmann json parsing, soxr,
libopusenc, ALSA) are modelled as oracles or parameters; the logic embedded
below is the repository's own: request parsing and intake, effective
sample-rate resolution, per-format dispatch, chunk framing, the soxr wrapper's
output-capacity bound, volume scaling, argument handling and the
worker-pool/shutdown protocol.
-/

/-- Minimal JSON value model for the nlohmann values the reader inspects. -/
inductive Json where
  | null : Json
  | bool (b : Bool) : Json
  | num (n : Int) : Json
  | str (s : String) : Json
  | arr (xs : List Json) : Json
  | obj (fields : List (String × Json)) : Json

/-- Field lookup on a JSON object (`j["k"]` when `j.contains("k")`). -/
def jGetField : Json → String → Option Json
  | Json.obj fs, k => (fs.find? (fun p => p.1 == k)).map (fun p => p.2)
  | _, _ => none

/-- The nlohmann contains check: true only on objects holding the key. -/
def jContains (j : Json) (k : String) : Bool :=
  (jGetField j k).isSome

/-- The nlohmann string getter: succeeds only on a string value. -/
def jGetStr : Json → Option String
  | Json.str s => some s
  | _ => none

/-- The nlohmann integer getter: succeeds only on a number value. -/
def jGetInt : Json → Option Int
  | Json.num n => some n
  | _ => none

/-- One line written to the error channel (stderr): either a dumped JSON
value, or raw unstructured text (as produced by plain `cerr <<`). -/
inductive ErrLine where
  | jsonLine (j : Json) : ErrLine
  | raw (s : String) : ErrLine

/-- The printError helper (part_000 lines 51-56): dump the object with the
single field named error onto stderr. -/
def printErrorLine (msg : String) : ErrLine :=
  ErrLine.jsonLine (Json.obj [("error", Json.str msg)])

/-- Whether an error-channel line is a structured single-field error object,
the shape the spec requires of every failure report. -/
def isErrorObject : ErrLine → Bool
  | ErrLine.jsonLine (Json.obj [(k, Json.str _)]) => k == "error"
  | _ => false

/-- RunConfig (part_000 lines 34-46), restricted to the fields the
dispatcher/pipeline logic reads; model paths and the accelerator string are
plumbing handed to the engine and are omitted.  The float volume is modelled
as a rational. -/
structure RunConfig where
  jsonl : Bool := false
  stream : Bool := false
  maxConcurrency : Int := 1
  playAudio : Bool := false
  volume : ℚ := 1

/-- The RunConfig defaults from the struct initializers. -/
def defaultRunConfig : RunConfig := {}

/-- One already-tokenized command-line option with its decoded value
(`argv` scanning plus `stoi`/`stof` decoding are external plumbing). -/
inductive Arg where
  | maxConcurrency (n : Int) : Arg
  | volume (v : ℚ) : Arg
  | stream : Arg
  | play : Arg
  | jsonl : Arg
  | other : Arg

/-- One iteration of the `parseArgs` option loop (part_000 lines 77-113):
`--max-concurrency N` stores `max(1, N)`; `--volume F` stores the value and
then throws if it lies outside `[0, 1]`; flags set their booleans. -/
def applyArg (cfg : RunConfig) : Arg → Except String RunConfig
  | Arg.maxConcurrency n => Except.ok { cfg with maxConcurrency := max 1 n }
  | Arg.volume v =>
      if v < 0 ∨ 1 < v then Except.error "Volume must be between 0.0 and 1.0"
      else Except.ok { cfg with volume := v }
  | Arg.stream => Except.ok { cfg with stream := true }
  | Arg.play => Except.ok { cfg with playAudio := true }
  | Arg.jsonl => Except.ok { cfg with jsonl := true }
  | Arg.other => Except.ok cfg

/-- The whole option loop of `parseArgs`: fold the options over the default
config; a thrown exception aborts startup. -/
def parseArgsModel (args : List Arg) : Except String RunConfig :=
  args.foldlM applyArg defaultRunConfig

/-- The std clamp on rationals: lo if `v < lo`, hi if `hi < v`, else v. -/
def clampQ (v lo hi : ℚ) : ℚ :=
  if v < lo then lo else if hi < v then hi else v

/-- The setVolume member (paroli_daemon.hpp line 47): store the argument
clamped to `[0, 1]`. -/
def setVolumeModel (v : ℚ) : ℚ :=
  clampQ v 0 1

/-- The synthesizer's stored volume after a sequence of `setVolume` calls,
starting from the member initializer `volume_ = 1.0f`. -/
def runVolOps (ops : List ℚ) : ℚ :=
  ops.foldl (fun _ v => setVolumeModel v) 1

/-- Truncation of a rational toward zero, the behaviour of the C++
float-to-integer cast `static_cast<int32_t>(sample * volume_)`. -/
def ratTrunc (q : ℚ) : Int :=
  if 0 ≤ q then ⌊q⌋ else ⌈q⌉

/-- The std clamp on integers. -/
def clampI (x lo hi : Int) : Int :=
  if x < lo then lo else if hi < x then hi else x

/-- One sample of the volume loop body in `ParoliSynthesizer::speak`
(paroli_daemon.cpp lines 162-168): scale, truncate, clamp to int16 range. -/
def scaleSample (vol : ℚ) (s : Int) : Int :=
  clampI (ratTrunc ((s : ℚ) * vol)) (-32768) 32767

/-- The volume-scaling pass of `speak` (paroli_daemon.cpp lines 161-169):
skipped entirely when the stored volume is exactly 1. -/
def applyVolume (vol : ℚ) (samples : List Int) : List Int :=
  if vol = 1 then samples else samples.map (scaleSample vol)

/-- The toLittleEndian4 helper (part_000 lines 149-156): the four
little-endian bytes of a 32-bit value (the uint32 cast is the implicit
mod 2^32). -/
def u32le (v : Nat) : List Nat :=
  [v % 256, v / 256 % 256, v / 65536 % 256, v / 16777216 % 256]

/-- The two little-endian bytes of one signed 16-bit sample as written by
`os.write` on an int16 buffer. -/
def i16le (s : Int) : List Nat :=
  [((s % 65536).toNat) % 256, ((s % 65536).toNat) / 256]

/-- Raw byte image of a PCM sample buffer. -/
def pcmBytes (xs : List Int) : List Nat :=
  xs.flatMap i16le

/-- Modelled from the spec: the WAV container "wraps a complete PCM buffer
with a header" (the writer itself, piper textToWavFile, is outside src/).
Standard 44-byte RIFF header for 16-bit mono PCM at the given rate. -/
def wavHeader (sr : Nat) (n : Nat) : List Nat :=
  [0x52, 0x49, 0x46, 0x46] ++ u32le (36 + 2 * n) ++
  [0x57, 0x41, 0x56, 0x45, 0x66, 0x6D, 0x74, 0x20] ++ u32le 16 ++
  [1, 0, 1, 0] ++ u32le sr ++ u32le (2 * sr) ++ [2, 0, 16, 0] ++
  [0x64, 0x61, 0x74, 0x61] ++ u32le (2 * n)

/-- Modelled from the spec: a complete WAV byte stream is the header
followed by the PCM data bytes. -/
def wavEncode (sr : Nat) (pcm : List Int) : List Nat :=
  wavHeader sr pcm.length ++ pcmBytes pcm

/-- The behaviour of the external `soxr_process` call: for given input and
rates it yields some output samples (content and count are the library's). -/
structure ResampleOracle where
  proc : List Int → Int → Int → List Int

/-- The soxrResample wrapper (paroli_daemon.cpp lines 99-112): the output buffer is
allocated with capacity `input.size() * out_sr / orig_sr` and resized to the
`odone` count the library reports, which can never exceed that capacity; so
whatever soxr produces, the wrapper returns at most
`input.length * outSr / origSr` samples.  Rates are C ints converted to
`size_t`; negative rates (no meaningful sample rate) are out of scope and
mapped through `Int.toNat`. -/
def soxrResample (rs : ResampleOracle) (input : List Int) (origSr outSr : Int) : List Int :=
  List.take (input.length * outSr.toNat / origSr.toNat) (rs.proc input origSr outSr)

/-- The behaviour of the external Ogg Opus encoders (OggOpusEncoder.hpp is
not in src/): a stateful incremental encoder created from a rate, fed PCM
chunks, finalized once; and the one-shot `encodeOgg`. -/
structure OpusOracle (σ : Type) where
  init : Int → σ
  encode : σ → List Int → σ × List Nat
  finish : σ → List Nat
  encodeOgg : List Int → Int → List Nat

/-- Feed a chunk sequence through the incremental encoder, concatenating
every packet it returns. -/
def opusFeed {σ : Type} (op : OpusOracle σ) : σ → List (List Int) → σ × List Nat
  | st, [] => (st, [])
  | st, p :: rest =>
      let pr := op.encode st p
      let rec' := opusFeed op pr.1 rest
      (rec'.1, pr.2 ++ rec'.2)

/-- The full incremental encoding of a chunk sequence: feed every chunk,
then append what `finish` returns. -/
def opusIncremental {σ : Type} (op : OpusOracle σ) (sr : Int) (pcms : List (List Int)) : List Nat :=
  let fed := opusFeed op (op.init sr) pcms
  fed.2 ++ op.finish fed.1

/-- Modelled from the spec: §8 asserts that streaming payloads, concatenated,
are semantically equivalent to the whole-buffer stream; for the external
encoder this is the statement that incrementally encoding the chunks and
finalizing yields the same bytes as one-shot encoding of their
concatenation. -/
def OpusCoherent {σ : Type} (op : OpusOracle σ) (sr : Int) : Prop :=
  ∀ pcms : List (List Int), opusIncremental op sr pcms = op.encodeOgg pcms.flatten sr

/-- A validated synthesis request (part_000 lines 142-147). -/
structure Request where
  text : String
  format : String
  sampleRate : Option Int
  id : Nat

/-- The synthesizePcm member (paroli_daemon.cpp lines 62-84):
whole-buffer synthesis.  piper textToAudio (external) produces the engine's
chunk sequence; with the no-op callback the buffer accumulates every chunk,
and the fallback path re-collects the same chunks, so the result is the
concatenation of the engine's chunks. -/
def synthesizePcm (chunks : List (List Int)) : List Int :=
  chunks.flatten

/-- The synthesizeStreamPcm member (paroli_daemon.cpp lines 86-97)
invokes the callback once per non-empty engine chunk; the daemon's pcm
streaming callback (part_000 lines 189-196) frames each delivered chunk's
bytes.  This is the emitted frame payload sequence. -/
def pcmStreamFrames (chunks : List (List Int)) : List (List Nat) :=
  (chunks.filter (fun c => !c.isEmpty)).map pcmBytes

/-- The streaming wav/opus callback loop (part_000 lines 208-243): for each
delivered chunk, `processChunk` skips an empty chunk, resamples when the
effective rate differs from native, then either frames the PCM bytes (wav)
or feeds the incremental encoder and frames any non-empty packet (opus).
Returns the final encoder state and the frame payloads in emission order. -/
def streamLoop {σ : Type} (rs : ResampleOracle) (op : OpusOracle σ) (native : Int)
    (fmt : String) (outSr : Int) : σ → List (List Int) → σ × List (List Nat)
  | st, [] => (st, [])
  | st, chunk :: rest =>
      if chunk.isEmpty then streamLoop rs op native fmt outSr st rest
      else
        let pcm := if outSr ≠ native then soxrResample rs chunk native outSr else chunk
        if fmt = "wav" then
          let r := streamLoop rs op native fmt outSr st rest
          (r.1, pcmBytes pcm :: r.2)
        else
          let pr := op.encode st pcm
          let r := streamLoop rs op native fmt outSr pr.1 rest
          (r.1, if pr.2.isEmpty then r.2 else pr.2 :: r.2)

/-- The complete streaming wav/opus frame sequence for one request
(part_000 lines 208-253): non-empty chunks are delivered by
`synthesizeStreamPcm`, processed by the loop above, and for opus the
finalizer's trailing packet is framed when non-empty. -/
def streamFramesWavOpus {σ : Type} (rs : ResampleOracle) (op : OpusOracle σ)
    (native : Int) (fmt : String) (outSr : Int) (chunks : List (List Int)) : List (List Nat) :=
  let deliver := chunks.filter (fun c => !c.isEmpty)
  let r := streamLoop rs op native fmt outSr (op.init outSr) deliver
  if fmt = "opus" then
    let tail := op.finish r.1
    if tail.isEmpty then r.2 else r.2 ++ [tail]
  else r.2

/-- Render frame payloads to the wire byte sequence: each payload is
preceded by its 4-byte little-endian length (part_000 lines 191-194,
222-225, 229-232, 248-251). -/
def framesToBytes (frames : List (List Nat)) : List Nat :=
  (frames.map (fun p => u32le p.length ++ p)).flatten

/-- From the spec's words (§4.3): in non-streaming wav mode, synthesize the
complete PCM buffer once, resample once when the effective rate differs from
native, and encode the result as a whole WAV byte stream at the effective
rate. -/
def wavWholeSpec (rs : ResampleOracle) (native outSr : Int) (pcmAll : List Int) : List Nat :=
  wavEncode outSr.toNat (if outSr ≠ native then soxrResample rs pcmAll native outSr else pcmAll)

/-- What one request's pipeline produced: sink bytes, stderr lines, and the
boolean `synthesizeOne` returns. -/
structure SynthOut where
  bytes : List Nat
  errs : List ErrLine
  ok : Bool

/-- The synthesizeOne pipeline (part_000 lines 167-275).  Parameters: the resample and
opus oracles, the engine's chunk sequence for the request's text, the native
rate, and the outcome of `gSynth->speak` with its `getLastError` text (the
ALSA playback path is external).  Faithful to the source: format dispatch,
the effective-rate resolution `req.sampleRate.value_or(opus ? 24000 :
nativeSr)`, the three pcm sub-modes, streaming framing, and the
non-streaming wav/opus paths.  Exceptions are caught at the boundary and
reported via `printError`. -/
def synthesizeOne {σ : Type} (rs : ResampleOracle) (op : OpusOracle σ)
    (chunks : List (List Int)) (native : Int) (speakOk : Bool) (speakErr : String)
    (cfg : RunConfig) (req : Request) : SynthOut :=
  if req.format ≠ "opus" ∧ req.format ≠ "wav" ∧ req.format ≠ "pcm" then
    { bytes := [], errs := [printErrorLine "Unsupported format (opus|wav|pcm)"], ok := false }
  else if req.format = "pcm" then
    if cfg.playAudio then
      { bytes := [],
        errs := if speakOk then [] else [ErrLine.raw ("Failed to speak: " ++ speakErr)],
        ok := true }
    else if cfg.stream then
      { bytes := framesToBytes (pcmStreamFrames chunks), errs := [], ok := true }
    else
      { bytes := pcmBytes (synthesizePcm chunks), errs := [], ok := true }
  else
    let outSr : Int := req.sampleRate.getD (if req.format = "opus" then 24000 else native)
    if cfg.stream then
      { bytes := framesToBytes (streamFramesWavOpus rs op native req.format outSr chunks),
        errs := [], ok := true }
    else if req.format = "wav" then
      { bytes := wavEncode native.toNat (synthesizePcm chunks), errs := [], ok := true }
    else
      let audio := synthesizePcm chunks
      let pcm := if outSr ≠ native then soxrResample rs audio native outSr else audio
      { bytes := op.encodeOgg pcm outSr, errs := [], ok := true }

/-- Field extraction of the request reader (part_000 lines 326-331), after
`json::parse` succeeded: require `text` (else "Missing text"), read it as a
string, default `format` to "wav", accept `sample_rate` only when present
and non-null, as a number.  Type mismatches raise nlohmann type errors,
modelled by fixed messages. -/
def parseRequestFields (j : Json) : Except String (String × String × Option Int) :=
  if ¬ jContains j "text" then Except.error "Missing text"
  else
    match (jGetField j "text").bind jGetStr with
    | none => Except.error "type must be string"
    | some t =>
        match jGetField j "format" with
        | none =>
            match jGetField j "sample_rate" with
            | none => Except.ok (t, "wav", none)
            | some Json.null => Except.ok (t, "wav", none)
            | some v =>
                match jGetInt v with
                | none => Except.error "type must be number"
                | some n => Except.ok (t, "wav", some n)
        | some fv =>
            match jGetStr fv with
            | none => Except.error "type must be string"
            | some f =>
                match jGetField j "sample_rate" with
                | none => Except.ok (t, f, none)
                | some Json.null => Except.ok (t, f, none)
                | some v =>
                    match jGetInt v with
                    | none => Except.error "type must be number"
                    | some n => Except.ok (t, f, some n)

/-- The per-line outcome of the reader: none for an empty line (skipped with
no output), otherwise the error message of the failure (parse failure or
field failure) or none when the line is valid. -/
def malformedMsg (parse : String → Option Json) (line : String) : Option String :=
  if line = "" then none
  else
    match parse line with
    | none => some "parse error"
    | some j =>
        match parseRequestFields j with
        | Except.error e => some e
        | Except.ok _ => none

/-- The fields of a valid line. -/
def validFields (parse : String → Option Json) (line : String) :
    Option (String × String × Option Int) :=
  if line = "" then none
  else
    match parse line with
    | none => none
    | some j =>
        match parseRequestFields j with
        | Except.error _ => none
        | Except.ok r => some r

/-- The request-reader loop (part_000 lines 322-344), parameterized by the
external `json::parse` (none models a parse exception): skip empty lines;
on failure print one structured error and continue; on success assign the
next identifier and enqueue.  Returns the enqueued requests in order and
the stderr lines in order. -/
def readLoop (parse : String → Option Json) : List String → Nat → List Request × List ErrLine
  | [], _ => ([], [])
  | line :: rest, nextId =>
      if line = "" then readLoop parse rest nextId
      else
        match parse line with
        | none =>
            let r := readLoop parse rest nextId
            (r.1, printErrorLine "parse error" :: r.2)
        | some j =>
            match parseRequestFields j with
            | Except.error e =>
                let r := readLoop parse rest nextId
                (r.1, printErrorLine e :: r.2)
            | Except.ok (t, f, sr) =>
                let r := readLoop parse rest (nextId + 1)
                ({ text := t, format := f, sampleRate := sr, id := nextId } :: r.1, r.2)

/-- Global state of the dispatcher: the shutdown flag, the job queue
(request ids), the ghost histories of everything ever enqueued and
everything processed, the worker exit count, and the reader's local pending
item — a request it has parsed and checked the flag for, but has not yet
pushed onto the queue. -/
structure SysState where
  shutdown : Bool
  queue : List Nat
  enqueuedLog : List Nat
  processedLog : List Nat
  exited : Nat
  total : Nat
  readerHolds : Option Nat

/-- The dispatcher's transitions, from part_000, at the atomicity the
program actually provides.  The reader's flag observation (line 334) and
its lock-protected push (lines 335-339) are two separate steps with no
synchronization spanning them: `readerCheck` is the reader passing the
flag check while holding a parsed request with its id assigned, and
`readerPush` is the later push, which the source performs with no further
flag check — so the asynchronous `setShutdown` (signal handler, line 297,
or end of input, line 347) may fire between them.  A live worker dequeues
the front item and runs the pipeline on it synchronously (lines 310-316) —
completion or a reported failure both count as processed, since
`synthesizeOne` catches every per-request error; a worker returns exactly
when it observes the flag set and the queue empty (line 311). -/
inductive SysStep : SysState → SysState → Prop where
  | readerCheck (s : SysState) (r : Nat) (hflag : s.shutdown = false)
      (hhold : s.readerHolds = none) :
      SysStep s { s with readerHolds := some r }
  | readerPush (s : SysState) (r : Nat) (hhold : s.readerHolds = some r) :
      SysStep s { s with queue := s.queue ++ [r], enqueuedLog := s.enqueuedLog ++ [r],
                         readerHolds := none }
  | setShutdown (s : SysState) :
      SysStep s { s with shutdown := true }
  | process (s : SysState) (r : Nat) (rest : List Nat)
      (hq : s.queue = r :: rest) (hw : s.exited < s.total) :
      SysStep s { s with queue := rest, processedLog := s.processedLog ++ [r] }
  | exit (s : SysState) (hs : s.shutdown = true) (hq : s.queue = [])
      (hw : s.exited < s.total) :
      SysStep s { s with exited := s.exited + 1 }

/-- Process start: flag clear, empty queue, no history, all workers live,
reader holding nothing. -/
def initState (n : Nat) : SysState :=
  { shutdown := false, queue := [], enqueuedLog := [], processedLog := [], exited := 0,
    total := n, readerHolds := none }

/-- States the dispatcher can reach from start. -/
def ReachableSys (n : Nat) (s : SysState) : Prop :=
  Relation.ReflTransGen SysStep (initState n) s

/-- A concrete resample oracle: soxr hands back the input samples (the
wrapper still truncates to its capacity bound). -/
def rsEcho : ResampleOracle :=
  { proc := fun input _ _ => input }

/-- A concrete opus oracle whose one-shot output records the target rate:
Ogg Opus headers contain the input rate, so distinct rates give distinct
streams. -/
def opRate : OpusOracle Unit :=
  { init := fun _ => ()
    encode := fun _ _ => ((), [])
    finish := fun _ => []
    encodeOgg := fun _ sr => [sr.toNat % 256] }

/-- A concrete coherent opus oracle: the state accumulates the PCM fed so
far and everything is emitted by `finish` as the raw bytes; the one-shot
encoder emits the same bytes directly. -/
def opAcc : OpusOracle (List Int) :=
  { init := fun _ => []
    encode := fun st p => (st ++ p, [])
    finish := fun st => pcmBytes st
    encodeOgg := fun pcm _ => pcmBytes pcm }

/-- Trace states for the lost-item race, one worker: the reader has parsed
request 0 and passed the flag check at line 334, but has not pushed yet. -/
def c2r1 : SysState :=
  { shutdown := false, queue := [], enqueuedLog := [], processedLog := [], exited := 0,
    total := 1, readerHolds := some 0 }

/-- The termination signal lands between the reader's check and its push. -/
def c2r2 : SysState :=
  { shutdown := true, queue := [], enqueuedLog := [], processedLog := [], exited := 0,
    total := 1, readerHolds := some 0 }

/-- The only worker observes the flag set and the queue empty, and exits. -/
def c2r3 : SysState :=
  { shutdown := true, queue := [], enqueuedLog := [], processedLog := [], exited := 1,
    total := 1, readerHolds := some 0 }

/-- The reader now pushes request 0: enqueued after shutdown, with every
worker already gone — the item sits in the queue forever. -/
def c2r4 : SysState :=
  { shutdown := true, queue := [0], enqueuedLog := [0], processedLog := [], exited := 1,
    total := 1, readerHolds := none }

/-- A toy parse function for witnesses: one fixed valid line, everything
else is a parse failure. -/
def parseToy (s : String) : Option Json :=
  if s = "good" then some (Json.obj [("text", Json.str "hi")]) else none

/-- Appending sample buffers appends their byte images. -/
theorem pcmBytes_append (a b : List Int) : pcmBytes (a ++ b) = pcmBytes a ++ pcmBytes b := by
  simp [pcmBytes]

/-- The byte image of a concatenation is the concatenation of byte images. -/
theorem pcmBytes_flatten (l : List (List Int)) :
    pcmBytes l.flatten = (l.map pcmBytes).flatten := by
  induction l with
  | nil => rfl
  | cons a t ih => simp [pcmBytes_append, ih]

/-- A non-empty sample buffer has a non-empty byte image. -/
theorem pcmBytes_ne_nil {c : List Int} (h : c ≠ []) : pcmBytes c ≠ [] := by
  cases c with
  | nil => exact absurd rfl h
  | cons x t => simp [pcmBytes, i16le]

/-- The option fold keeps `maxConcurrency` at least 1 once it is. -/
theorem mcInvariant : ∀ (args : List Arg) (cfg cfg' : RunConfig),
    1 ≤ cfg.maxConcurrency → List.foldlM applyArg cfg args = Except.ok cfg' →
    1 ≤ cfg'.maxConcurrency := by
  intro args
  induction args with
  | nil =>
      intro cfg cfg' h1 h2
      simp only [List.foldlM, pure] at h2
      cases h2
      exact h1
  | cons a rest ih =>
      intro cfg cfg' h1 h2
      simp only [List.foldlM] at h2
      cases a with
      | maxConcurrency n =>
          exact ih { cfg with maxConcurrency := max 1 n } cfg' (le_max_left 1 n) h2
      | volume v =>
          simp only [applyArg] at h2
          by_cases hv : v < 0 ∨ 1 < v
          · rw [if_pos hv] at h2
            exact Except.noConfusion h2
          · rw [if_neg hv] at h2
            exact ih { cfg with volume := v } cfg' h1 h2
      | stream =>
          exact ih { cfg with stream := true } cfg' h1 h2
      | play =>
          exact ih { cfg with playAudio := true } cfg' h1 h2
      | jsonl =>
          exact ih { cfg with jsonl := true } cfg' h1 h2
      | other =>
          exact ih cfg cfg' h1 h2

/-- The clamp in `setVolume` lands in the unit interval for every input. -/
theorem setVolBounds (v : ℚ) : 0 ≤ setVolumeModel v ∧ setVolumeModel v ≤ 1 := by
  by_cases hlt : v < 0
  · simp only [setVolumeModel, clampQ, if_pos hlt]
    norm_num
  · by_cases hgt : (1 : ℚ) < v
    · simp only [setVolumeModel, clampQ, if_neg hlt, if_pos hgt]
      norm_num
    · simp only [setVolumeModel, clampQ, if_neg hlt, if_neg hgt]
      exact ⟨le_of_not_lt hlt, le_of_not_lt hgt⟩

/-- The stored volume stays in the unit interval across a fold of setVolume
calls, from any in-range start. -/
theorem volFold : ∀ (ops : List ℚ) (a : ℚ), 0 ≤ a → a ≤ 1 →
    0 ≤ ops.foldl (fun _ v => setVolumeModel v) a ∧
    ops.foldl (fun _ v => setVolumeModel v) a ≤ 1 := by
  intro ops
  induction ops with
  | nil => intro a h0 h1; exact ⟨h0, h1⟩
  | cons v rest ih =>
      intro a h0 h1
      simp only [List.foldl]
      exact ih (setVolumeModel v) (setVolBounds v).1 (setVolBounds v).2

/-- C9: for every integer argument N to the max-concurrency option, argument
parsing stores max(1, N) instead of rejecting; zero and negative values are
silently clamped to 1; and every RunConfig that parseArgs returns (and so
reaches worker-pool startup) has maxConcurrency at least 1. -/
theorem C9_confirmed :
    (∀ (cfg : RunConfig) (n : Int),
        applyArg cfg (Arg.maxConcurrency n)
          = Except.ok { cfg with maxConcurrency := max 1 n }) ∧
    (∀ (cfg : RunConfig) (n : Int), n ≤ 0 →
        applyArg cfg (Arg.maxConcurrency n)
          = Except.ok { cfg with maxConcurrency := 1 }) ∧
    (∀ (args : List Arg) (cfg : RunConfig),
        parseArgsModel args = Except.ok cfg → 1 ≤ cfg.maxConcurrency) := by
  refine ⟨fun cfg n => rfl, fun cfg n hn => ?_, fun args cfg h => ?_⟩
  · have hm : max 1 n = 1 := max_eq_left (hn.trans (by norm_num))
    simp [applyArg, hm]
  · exact mcInvariant args defaultRunConfig cfg (by norm_num [defaultRunConfig]) h

/-- C9 witness: the clamping observed at the concrete argument -5; the
resulting config reaches startup with maxConcurrency 1. -/
theorem C9_witness :
    (applyArg defaultRunConfig (Arg.maxConcurrency (-5))
       = Except.ok { defaultRunConfig with maxConcurrency := 1 }) ∧
    1 ≤ ({ defaultRunConfig with maxConcurrency := 1 } : RunConfig).maxConcurrency := by
  constructor
  · exact C9_confirmed.2.1 defaultRunConfig (-5) (by norm_num)
  · exact C9_confirmed.2.2 [Arg.maxConcurrency (-5)] { defaultRunConfig with maxConcurrency := 1 }
      (by rfl)

/-- C10: setVolume clamps every argument into the unit interval instead of
rejecting it, so the stored volume is in range after every operation
sequence (starting from the initializer 1.0) — while the volume CLI option
throws on the same out-of-range values. -/
theorem C10_confirmed :
    (∀ v : ℚ, 0 ≤ setVolumeModel v ∧ setVolumeModel v ≤ 1) ∧
    (∀ ops : List ℚ, 0 ≤ runVolOps ops ∧ runVolOps ops ≤ 1) ∧
    (∀ (cfg : RunConfig) (v : ℚ), (v < 0 ∨ 1 < v) →
        applyArg cfg (Arg.volume v)
          = Except.error "Volume must be between 0.0 and 1.0") := by
  refine ⟨setVolBounds, fun ops => ?_, fun cfg v hv => ?_⟩
  · exact volFold ops 1 (by norm_num) (le_refl 1)
  · simp [applyArg, hv]

/-- C10 witness: the out-of-range value 2 is clamped by setVolume but makes
the CLI option throw; a concrete operation sequence stays in range. -/
theorem C10_witness :
    (0 ≤ setVolumeModel 2 ∧ setVolumeModel 2 ≤ 1) ∧
    (0 ≤ runVolOps [2, 1/2] ∧ runVolOps [2, 1/2] ≤ 1) ∧
    applyArg defaultRunConfig (Arg.volume 2)
      = Except.error "Volume must be between 0.0 and 1.0" :=
  ⟨C10_confirmed.1 2, C10_confirmed.2.1 [2, 1/2],
   C10_confirmed.2.2 defaultRunConfig 2 (by norm_num)⟩

/-- Truncation toward zero never increases the distance to zero, stated as
the two bounds the volume path needs. -/
theorem ratTruncBounds (q : ℚ) (hlo : -32768 ≤ q) (hhi : q ≤ 32767) :
    -32768 ≤ ratTrunc q ∧ ratTrunc q ≤ 32767 := by
  unfold ratTrunc
  by_cases h0 : 0 ≤ q
  · rw [if_pos h0]
    constructor
    · have : (0 : Int) ≤ ⌊q⌋ := Int.floor_nonneg.mpr h0
      omega
    · have : (⌊q⌋ : ℚ) ≤ q := Int.floor_le q
      have h2 : (⌊q⌋ : ℚ) ≤ 32767 := this.trans hhi
      exact_mod_cast h2
  · rw [if_neg h0]
    push_neg at h0
    constructor
    · have : q ≤ (⌈q⌉ : ℚ) := Int.le_ceil q
      have h2 : (-32768 : ℚ) ≤ (⌈q⌉ : ℚ) := hlo.trans this
      exact_mod_cast h2
    · have : ⌈q⌉ ≤ 0 := Int.ceil_le.mpr (by exact_mod_cast h0.le)
      omega

/-- C8: on the pcm direct-playback path, each sample is scaled by the volume
factor, truncated and clamped to the signed 16-bit range before
reassignment, so the result is always in range and the truncated product
itself never leaves the 16-bit range (in particular the int32 intermediate
never wraps), even for extreme samples; and a volume of exactly 1 leaves
the buffer untouched. -/
theorem C8_confirmed (vol : ℚ) (samples : List Int)
    (h0 : 0 ≤ vol) (h1 : vol ≤ 1)
    (hs : ∀ s ∈ samples, -32768 ≤ s ∧ s ≤ 32767) :
    (∀ t ∈ applyVolume vol samples, -32768 ≤ t ∧ t ≤ 32767) ∧
    (∀ s ∈ samples, -32768 ≤ ratTrunc ((s : ℚ) * vol) ∧ ratTrunc ((s : ℚ) * vol) ≤ 32767) ∧
    (vol = 1 → applyVolume vol samples = samples) := by
  have hprod : ∀ s ∈ samples, -32768 ≤ (s : ℚ) * vol ∧ (s : ℚ) * vol ≤ 32767 := by
    intro s hmem
    obtain ⟨hl, hr⟩ := hs s hmem
    by_cases hsgn : (0 : Int) ≤ s
    · constructor
      · have : (0 : ℚ) ≤ (s : ℚ) * vol := by
          apply mul_nonneg _ h0
          exact_mod_cast hsgn
        linarith
      · have hle : (s : ℚ) * vol ≤ (s : ℚ) := by
          apply mul_le_of_le_one_right _ h1
          exact_mod_cast hsgn
        have : (s : ℚ) ≤ 32767 := by exact_mod_cast hr
        linarith
    · push_neg at hsgn
      constructor
      · have hneg : (s : ℚ) ≤ 0 := by exact_mod_cast hsgn.le
        have hle : (s : ℚ) * 1 ≤ (s : ℚ) * vol :=
          mul_le_mul_of_nonpos_left h1 hneg
        have : (-32768 : ℚ) ≤ (s : ℚ) := by exact_mod_cast hl
        linarith
      · have hneg : (s : ℚ) ≤ 0 := by exact_mod_cast hsgn.le
        have : (s : ℚ) * vol ≤ 0 := mul_nonpos_of_nonpos_of_nonneg hneg h0
        linarith
  refine ⟨?_, ?_, fun hv => by simp [applyVolume, hv]⟩
  · intro t ht
    unfold applyVolume at ht
    by_cases hv : vol = 1
    · rw [if_pos hv] at ht
      exact hs t ht
    · rw [if_neg hv] at ht
      obtain ⟨s, hmem, hrw⟩ := List.mem_map.mp ht
      obtain ⟨ha, hb⟩ := hprod s hmem
      obtain ⟨hc, hd⟩ := ratTruncBounds _ ha hb
      subst hrw
      unfold scaleSample clampI
      split
      · constructor <;> omega
      · split
        · constructor <;> omega
        · exact ⟨hc, hd⟩
  · intro s hmem
    obtain ⟨ha, hb⟩ := hprod s hmem
    exact ratTruncBounds _ ha hb

/-- C8 witness: volume one half on the extreme samples, and the exact no-op
at volume 1. -/
theorem C8_witness :
    (∀ t ∈ applyVolume (1/2 : ℚ) [-32768, 32767, 100], -32768 ≤ t ∧ t ≤ 32767) ∧
    applyVolume (1 : ℚ) [-32768, 32767] = [-32768, 32767] := by
  constructor
  · exact (C8_confirmed (1/2) [-32768, 32767, 100] (by norm_num) (by norm_num)
      (by decide)).1
  · exact (C8_confirmed 1 [-32768, 32767] (by norm_num) (by norm_num)
      (by decide)).2.2 rfl

/-- C2: evaluation of the code at the failing interleaving.  With one
worker, the reader passes the line-334 flag check for request 0, the
termination signal then sets the flag, the worker sees the flag set and the
queue empty and exits, and only then does the reader push request 0.  The
full trace is reachable; the push step happens from a state whose shutdown
flag is already true and enlarges the enqueued history — the reader does
enqueue after shutdown — and the final state has the item still queued,
nothing processed, every worker exited, and no available step that could
ever process it or remove it from the queue: the item is silently dropped,
where the claim (and the spec, and the README's shutdown lifecycle) demand
that no item be enqueued after shutdown and none be dropped. -/
theorem C2_code_eval :
    ReachableSys 1 c2r4 ∧
    (SysStep c2r3 c2r4 ∧ c2r3.shutdown = true ∧
      c2r4.enqueuedLog = c2r3.enqueuedLog ++ [0]) ∧
    (c2r4.queue = [0] ∧ c2r4.processedLog = [] ∧ c2r4.exited = c2r4.total) ∧
    ¬ ∃ s', SysStep c2r4 s' ∧ (s'.processedLog ≠ [] ∨ s'.queue ≠ [0]) := by
  have h01 : SysStep (initState 1) c2r1 := SysStep.readerCheck (initState 1) 0 rfl rfl
  have h12 : SysStep c2r1 c2r2 := SysStep.setShutdown c2r1
  have h23 : SysStep c2r2 c2r3 := SysStep.exit c2r2 rfl rfl (by decide)
  have h34 : SysStep c2r3 c2r4 := SysStep.readerPush c2r3 0 rfl
  refine ⟨?_, ⟨h34, rfl, rfl⟩, ⟨rfl, rfl, rfl⟩, ?_⟩
  · exact Relation.ReflTransGen.tail (Relation.ReflTransGen.tail
      (Relation.ReflTransGen.tail (Relation.ReflTransGen.tail
        Relation.ReflTransGen.refl h01) h12) h23) h34
  · rintro ⟨s', hstep, hbad⟩
    cases hstep with
    | readerCheck r hflag hhold => exact Bool.noConfusion hflag
    | readerPush r hhold => exact Option.noConfusion hhold
    | setShutdown =>
        rcases hbad with h | h
        · exact h rfl
        · exact h rfl
    | process r rest hq hw => exact absurd hw (by decide)
    | exit hs hq hw => exact absurd hw (by decide)

/-- C3: a malformed line (parse failure or a failing required field)
contributes exactly one structured error object to the error channel,
enqueues nothing, leaves the identifier counter untouched, and the rest of
the input is processed exactly as before — so the next valid line is still
parsed, given the next identifier, and enqueued; a valid line is enqueued
with the current identifier and the counter advances. -/
theorem C3_confirmed (parse : String → Option Json) (line : String)
    (rest : List String) (n : Nat) :
    (∀ msg, malformedMsg parse line = some msg →
        readLoop parse (line :: rest) n
          = ((readLoop parse rest n).1,
             printErrorLine msg :: (readLoop parse rest n).2)) ∧
    (∀ t f sr, validFields parse line = some (t, f, sr) →
        readLoop parse (line :: rest) n
          = ({ text := t, format := f, sampleRate := sr, id := n }
               :: (readLoop parse rest (n + 1)).1,
             (readLoop parse rest (n + 1)).2)) := by
  constructor
  · intro msg hmsg
    unfold malformedMsg at hmsg
    by_cases hline : line = ""
    · rw [if_pos hline] at hmsg; cases hmsg
    · rw [if_neg hline] at hmsg
      cases hp : parse line with
      | none =>
          rw [hp] at hmsg
          have hm : msg = "parse error" := by
            have := hmsg
            simp only [Option.some.injEq] at this
            exact this.symm
          subst hm
          simp only [readLoop, if_neg hline, hp]
      | some j =>
          rw [hp] at hmsg
          cases hq : parseRequestFields j with
          | error e =>
              simp only [hq, Option.some.injEq] at hmsg
              subst hmsg
              simp only [readLoop, if_neg hline, hp, hq]
          | ok r =>
              simp only [hq] at hmsg
              exact Option.noConfusion hmsg
  · intro t f sr hval
    unfold validFields at hval
    by_cases hline : line = ""
    · rw [if_pos hline] at hval; cases hval
    · rw [if_neg hline] at hval
      cases hp : parse line with
      | none => rw [hp] at hval; cases hval
      | some j =>
          rw [hp] at hval
          cases hq : parseRequestFields j with
          | error e =>
              simp only [hq] at hval
              exact Option.noConfusion hval
          | ok r =>
              simp only [hq, Option.some.injEq] at hval
              subst hval
              simp only [readLoop, if_neg hline, hp, hq]

/-- C3 witness: under a toy parse function, the malformed line contributes
exactly one structured error and the following valid line is still enqueued
with identifier 0. -/
theorem C3_witness :
    (readLoop parseToy ["bad", "good"] 0
       = ((readLoop parseToy ["good"] 0).1,
          printErrorLine "parse error" :: (readLoop parseToy ["good"] 0).2)) ∧
    (readLoop parseToy ["good"] 0
       = ({ text := "hi", format := "wav", sampleRate := none, id := 0 }
            :: (readLoop parseToy [] 1).1,
          (readLoop parseToy [] 1).2)) :=
  ⟨(C3_confirmed parseToy "bad" ["good"] 0).1 "parse error" rfl,
   (C3_confirmed parseToy "good" [] 0).2 "hi" "wav" none rfl⟩

/-- C1: evaluation of the code at the failing input.  A non-streaming wav
request carrying sample_rate 16000 against a 22050 Hz engine is written as
the engine-rate WAV of the unresampled buffer — the resolved effective rate
is never used on this path — whereas the spec's words (resample once, encode
at the effective rate) require a different byte stream. -/
theorem C1_code_eval :
    (synthesizeOne rsEcho opRate [[100, 200]] 22050 true "" defaultRunConfig
        { text := "Hi", format := "wav", sampleRate := some 16000, id := 0 }).bytes
      = wavEncode 22050 [100, 200] ∧
    (synthesizeOne rsEcho opRate [[100, 200]] 22050 true "" defaultRunConfig
        { text := "Hi", format := "wav", sampleRate := some 16000, id := 0 }).bytes
      = (synthesizeOne rsEcho opRate [[100, 200]] 22050 true "" defaultRunConfig
        { text := "Hi", format := "wav", sampleRate := none, id := 0 }).bytes ∧
    (synthesizeOne rsEcho opRate [[100, 200]] 22050 true "" defaultRunConfig
        { text := "Hi", format := "wav", sampleRate := some 16000, id := 0 }).bytes
      ≠ wavWholeSpec rsEcho 22050 16000 [100, 200] := by
  refine ⟨rfl, rfl, ?_⟩
  decide

/-- C4: evaluation of the code at the failing input.  When direct playback
fails, the daemon writes a raw unstructured line to the error channel, not
a structured error object. -/
theorem C4_code_eval :
    (synthesizeOne rsEcho opRate [[1]] 22050 false "boom"
        { defaultRunConfig with playAudio := true }
        { text := "Hi", format := "pcm", sampleRate := none, id := 0 }).errs
      = [ErrLine.raw "Failed to speak: boom"] ∧
    isErrorObject (ErrLine.raw "Failed to speak: boom") = false :=
  ⟨rfl, rfl⟩

/-- Every frame the opus streaming loop emits is non-empty: packets are
framed only under the non-emptiness guard. -/
theorem streamLoopOpusFrames {σ : Type} (rs : ResampleOracle) (op : OpusOracle σ)
    (native outSr : Int) :
    ∀ (l : List (List Int)) (st : σ) (f : List Nat),
      f ∈ (streamLoop rs op native "opus" outSr st l).2 → f ≠ [] := by
  intro l
  induction l with
  | nil =>
      intro st f hf
      simp [streamLoop] at hf
  | cons c rest ih =>
      intro st f hf
      have how : (("opus" : String) = "wav") = False := by simp
      by_cases hc : c.isEmpty = true
      · rw [streamLoop, if_pos hc] at hf
        exact ih st f hf
      · rw [streamLoop, if_neg hc] at hf
        simp only [how, if_false] at hf
        by_cases hogg :
            (op.encode st (if outSr ≠ native then soxrResample rs c native outSr else c)).2.isEmpty
              = true
        · rw [if_pos hogg] at hf
          exact ih _ f hf
        · rw [if_neg hogg] at hf
          rcases List.mem_cons.mp hf with h | h
          · subst h
            intro hnil
            rw [hnil] at hogg
            exact hogg rfl
          · exact ih _ f h

/-- When no resampling happens (effective rate = native), the wav streaming
loop frames exactly the byte images of the delivered non-empty chunks. -/
theorem streamLoopWavNative {σ : Type} (rs : ResampleOracle) (op : OpusOracle σ)
    (native : Int) :
    ∀ (l : List (List Int)) (st : σ),
      (streamLoop rs op native "wav" native st l).2
        = (l.filter (fun c => !c.isEmpty)).map pcmBytes := by
  intro l
  induction l with
  | nil => intro st; simp [streamLoop]
  | cons c rest ih =>
      intro st
      by_cases hc : c.isEmpty = true
      · rw [streamLoop, if_pos hc]
        rw [List.filter_cons]
        simp only [hc, Bool.not_true, if_false]
        exact ih st
      · rw [streamLoop, if_neg hc]
        have hns : (native ≠ native) = False := by simp
        simp only [hns, if_false, if_pos rfl]
        rw [List.filter_cons]
        have hcb : c.isEmpty = false := by
          cases h : c.isEmpty
          · rfl
          · exact absurd h hc
        simp only [hcb, Bool.not_false, if_true, List.map]
        rw [ih st]

/-- When no resampling happens, the opus streaming loop's state agrees with
plain incremental feeding, and its concatenated frame payloads are exactly
the packets the encoder produced. -/
theorem streamLoopOpusFeed {σ : Type} (rs : ResampleOracle) (op : OpusOracle σ)
    (native : Int) :
    ∀ (l : List (List Int)) (st : σ), (∀ c ∈ l, c.isEmpty = false) →
      (streamLoop rs op native "opus" native st l).1 = (opusFeed op st l).1 ∧
      ((streamLoop rs op native "opus" native st l).2).flatten = (opusFeed op st l).2 := by
  intro l
  induction l with
  | nil => intro st hne; exact ⟨rfl, rfl⟩
  | cons c rest ih =>
      intro st hne
      have hc : c.isEmpty = false := hne c (List.mem_cons_self c rest)
      have hrest : ∀ x ∈ rest, x.isEmpty = false :=
        fun x hx => hne x (List.mem_cons_of_mem c hx)
      rw [streamLoop, if_neg (by rw [hc]; exact Bool.false_ne_true)]
      have how : (("opus" : String) = "wav") = False := by simp
      have hns : (native ≠ native) = False := by simp
      simp only [how, hns, if_false]
      obtain ⟨ih1, ih2⟩ := ih (op.encode st c).1 hrest
      constructor
      · rw [opusFeed]
        exact ih1
      · rw [opusFeed]
        by_cases hogg : (op.encode st c).2.isEmpty = true
        · rw [if_pos hogg]
          have : (op.encode st c).2 = [] := List.isEmpty_iff.mp hogg
          rw [this, List.nil_append]
          exact ih2
        · rw [if_neg hogg]
          rw [List.flatten_cons]
          rw [ih2]

/-- C5 counterexample: a one-sample chunk downsampled from 22050 to 16000
is forced empty by the wrapper's capacity bound, yet the wav streaming path
frames it — the wire carries a 4-byte zero length header, contradicting the
claim that a zero-payload chunk is never framed. -/
theorem C5_counterexample :
    streamFramesWavOpus rsEcho opRate 22050 "wav" 16000 [[7]] = [[]] ∧
    framesToBytes (streamFramesWavOpus rsEcho opRate 22050 "wav" 16000 [[7]]) = [0, 0, 0, 0] ∧
    ¬ (∀ f ∈ streamFramesWavOpus rsEcho opRate 22050 "wav" 16000 [[7]], f ≠ []) := by
  refine ⟨rfl, rfl, ?_⟩
  decide

/-- C5 amended: in streaming mode, zero-payload chunks are never framed on
the pcm and opus paths, and on the wav path whenever the effective rate
equals the native rate (no resampling); the wav emptiness check runs on the
engine chunk before resampling, so this guarantee does not extend to
resampled wav chunks. -/
theorem C5_amended {σ : Type} (rs : ResampleOracle) (op : OpusOracle σ)
    (native outSr : Int) (chunks : List (List Int)) :
    (∀ f ∈ pcmStreamFrames chunks, f ≠ []) ∧
    (∀ f ∈ streamFramesWavOpus rs op native "opus" outSr chunks, f ≠ []) ∧
    (outSr = native → ∀ f ∈ streamFramesWavOpus rs op native "wav" outSr chunks, f ≠ []) := by
  refine ⟨?_, ?_, ?_⟩
  · intro f hf
    obtain ⟨c, hc, hrw⟩ := List.mem_map.mp hf
    have hcne : c ≠ [] := by
      have hb := (List.mem_filter.mp hc).2
      simpa using hb
    rw [← hrw]
    exact pcmBytes_ne_nil hcne
  · intro f hf
    unfold streamFramesWavOpus at hf
    rw [if_pos (rfl : ("opus" : String) = "opus")] at hf
    by_cases htail :
        (op.finish (streamLoop rs op native "opus" outSr (op.init outSr)
          (chunks.filter (fun c => !c.isEmpty))).1).isEmpty = true
    · rw [if_pos htail] at hf
      exact streamLoopOpusFrames rs op native outSr _ _ f hf
    · rw [if_neg htail] at hf
      rcases List.mem_append.mp hf with h | h
      · exact streamLoopOpusFrames rs op native outSr _ _ f h
      · have hfeq : f = _ := List.mem_singleton.mp h
        rw [hfeq]
        intro hnil
        rw [hnil] at htail
        exact htail rfl
  · intro ho f hf
    subst ho
    unfold streamFramesWavOpus at hf
    rw [if_neg (by decide : ¬ (("wav" : String) = "opus"))] at hf
    rw [streamLoopWavNative] at hf
    obtain ⟨c, hc, hrw⟩ := List.mem_map.mp hf
    have hcne : c ≠ [] := by
      have hb := (List.mem_filter.mp hc).2
      simpa using hb
    rw [← hrw]
    exact pcmBytes_ne_nil hcne

/-- C5 witness: at the native rate, every emitted frame is non-empty for
all three formats on a concrete chunk sequence. -/
theorem C5_witness :
    (∀ f ∈ pcmStreamFrames [[1], [2]], f ≠ []) ∧
    (∀ f ∈ streamFramesWavOpus rsEcho opRate 22050 "opus" 22050 [[1], [2]], f ≠ []) ∧
    (∀ f ∈ streamFramesWavOpus rsEcho opRate 22050 "wav" 22050 [[1], [2]], f ≠ []) := by
  obtain ⟨a, b, c⟩ := C5_amended rsEcho opRate 22050 22050 [[1], [2]]
  exact ⟨a, b, c rfl⟩

/-- C6 counterexample: against a 22050 Hz engine, a non-streaming opus
request with sample_rate equal to the native rate resolves the effective
rate to 22050, while omitting sample_rate resolves it to the opus default
24000; the encoder is driven at different rates and the outputs differ. -/
theorem C6_counterexample :
    (synthesizeOne rsEcho opRate [[5]] 22050 true "" defaultRunConfig
        { text := "Hi", format := "opus", sampleRate := some 22050, id := 0 }).bytes
      ≠ (synthesizeOne rsEcho opRate [[5]] 22050 true "" defaultRunConfig
        { text := "Hi", format := "opus", sampleRate := none, id := 0 }).bytes := by
  decide

/-- C6 amended: requesting sampleRate equal to the native rate is
byte-identical to omitting it for wav (the default is the native rate), and
for opus exactly when the native rate is the opus default 24000; otherwise
the two resolved rates differ. -/
theorem C6_amended {σ : Type} (rs : ResampleOracle) (op : OpusOracle σ)
    (chunks : List (List Int)) (native : Int) (speakOk : Bool) (speakErr : String)
    (cfg : RunConfig) (txt : String) (rid : Nat) :
    (synthesizeOne rs op chunks native speakOk speakErr cfg
        { text := txt, format := "wav", sampleRate := some native, id := rid }
      = synthesizeOne rs op chunks native speakOk speakErr cfg
        { text := txt, format := "wav", sampleRate := none, id := rid }) ∧
    (native = 24000 →
      synthesizeOne rs op chunks native speakOk speakErr cfg
        { text := txt, format := "opus", sampleRate := some native, id := rid }
      = synthesizeOne rs op chunks native speakOk speakErr cfg
        { text := txt, format := "opus", sampleRate := none, id := rid }) := by
  constructor
  · rfl
  · intro h
    subst h
    rfl

/-- C6 witness: equality observed at concrete inputs — opus at native rate
24000, wav at native rate 22050. -/
theorem C6_witness :
    (synthesizeOne rsEcho opRate [[5]] 24000 true "" defaultRunConfig
        { text := "Hi", format := "opus", sampleRate := some 24000, id := 0 }
      = synthesizeOne rsEcho opRate [[5]] 24000 true "" defaultRunConfig
        { text := "Hi", format := "opus", sampleRate := none, id := 0 }) ∧
    (synthesizeOne rsEcho opRate [[5]] 22050 true "" defaultRunConfig
        { text := "Hi", format := "wav", sampleRate := some 22050, id := 0 }
      = synthesizeOne rsEcho opRate [[5]] 22050 true "" defaultRunConfig
        { text := "Hi", format := "wav", sampleRate := none, id := 0 }) :=
  ⟨(C6_amended rsEcho opRate [[5]] 24000 true "" defaultRunConfig "Hi" 0).2 rfl,
   (C6_amended rsEcho opRate [[5]] 22050 true "" defaultRunConfig "Hi" 0).1⟩

/-- Feeding the accumulating oracle concatenates the state and emits no
intermediate packets. -/
theorem opAccFeed : ∀ (l : List (List Int)) (st : List Int),
    (opusFeed opAcc st l).1 = st ++ l.flatten ∧ (opusFeed opAcc st l).2 = [] := by
  intro l
  induction l with
  | nil => intro st; constructor <;> simp [opusFeed]
  | cons c rest ih =>
      intro st
      obtain ⟨h1, h2⟩ := ih (st ++ c)
      constructor
      · rw [opusFeed]
        show (opusFeed opAcc (st ++ c) rest).1 = st ++ (c :: rest).flatten
        rw [h1, List.flatten_cons, List.append_assoc]
      · rw [opusFeed]
        show ([] : List Nat) ++ (opusFeed opAcc (st ++ c) rest).2 = []
        rw [h2]
        rfl

/-- The accumulating oracle is coherent: incremental encoding of the chunks
equals one-shot encoding of their concatenation. -/
theorem opAccCoherent (sr : Int) : OpusCoherent opAcc sr := by
  intro pcms
  obtain ⟨h1, h2⟩ := opAccFeed pcms (opAcc.init sr)
  show (opusFeed opAcc (opAcc.init sr) pcms).2
      ++ opAcc.finish (opusFeed opAcc (opAcc.init sr) pcms).1
    = opAcc.encodeOgg pcms.flatten sr
  rw [h2, h1]
  show pcmBytes (([] : List Int) ++ pcms.flatten) = pcmBytes pcms.flatten
  rw [List.nil_append]

/-- C7 counterexample: with resampling active (22050 to 16000) and a short
engine chunk, the streaming wav payloads concatenate to nothing while the
whole-buffer wav output still carries the sample — the two modes do not
decode to the same audio, because the streaming path resamples per chunk
(dropping short chunks at the wrapper's capacity bound) and the
whole-buffer path never resamples at all. -/
theorem C7_counterexample :
    (streamFramesWavOpus rsEcho opRate 22050 "wav" 16000 [[7]]).flatten = ([] : List Nat) ∧
    (synthesizeOne rsEcho opRate [[7]] 22050 true "" defaultRunConfig
        { text := "Hi", format := "wav", sampleRate := some 16000, id := 0 }).bytes
      = wavHeader 22050 1 ++ pcmBytes [7] ∧
    pcmBytes [(7 : Int)] ≠ ([] : List Nat) := by
  refine ⟨rfl, rfl, by decide⟩

/-- C7 amended: with frame headers stripped and payloads concatenated,
streaming output equals whole-buffer output byte-for-byte for pcm, and
whenever the effective rate equals the native rate also for wav (the
payloads are exactly the data portion of the whole WAV stream) and — for
any coherent incremental encoder — for opus; when resampling is active the
equivalence fails (see the counterexample). -/
theorem C7_amended {σ : Type} (rs : ResampleOracle) (op : OpusOracle σ)
    (chunks : List (List Int)) (native outSr : Int) :
    ((pcmStreamFrames chunks).flatten = pcmBytes (synthesizePcm chunks)) ∧
    (outSr = native →
        (streamFramesWavOpus rs op native "wav" outSr chunks).flatten
          = pcmBytes (synthesizePcm chunks) ∧
        wavEncode native.toNat (synthesizePcm chunks)
          = wavHeader native.toNat (synthesizePcm chunks).length
              ++ pcmBytes (synthesizePcm chunks)) ∧
    (outSr = native → OpusCoherent op outSr →
        (streamFramesWavOpus rs op native "opus" outSr chunks).flatten
          = op.encodeOgg (synthesizePcm chunks) outSr) := by
  refine ⟨?_, ?_, ?_⟩
  · unfold pcmStreamFrames synthesizePcm
    rw [← pcmBytes_flatten, List.flatten_filter_not_isEmpty]
  · intro ho
    subst ho
    constructor
    · unfold streamFramesWavOpus synthesizePcm
      rw [if_neg (by decide : ¬ (("wav" : String) = "opus"))]
      rw [streamLoopWavNative]
      rw [← pcmBytes_flatten, List.flatten_filter_not_isEmpty,
        List.flatten_filter_not_isEmpty]
    · rfl
  · intro ho hcoh
    subst ho
    unfold streamFramesWavOpus synthesizePcm
    rw [if_pos (rfl : ("opus" : String) = "opus")]
    have hdel : ∀ c ∈ chunks.filter (fun c => !c.isEmpty), c.isEmpty = false := by
      intro c hc
      have hb := (List.mem_filter.mp hc).2
      simpa using hb
    obtain ⟨h1, h2⟩ :=
      streamLoopOpusFeed rs op outSr (chunks.filter (fun c => !c.isEmpty)) (op.init outSr) hdel
    have hjoin :
        ((if (op.finish (streamLoop rs op outSr "opus" outSr (op.init outSr)
              (chunks.filter (fun c => !c.isEmpty))).1).isEmpty = true then
            (streamLoop rs op outSr "opus" outSr (op.init outSr)
              (chunks.filter (fun c => !c.isEmpty))).2
          else
            (streamLoop rs op outSr "opus" outSr (op.init outSr)
              (chunks.filter (fun c => !c.isEmpty))).2
              ++ [op.finish (streamLoop rs op outSr "opus" outSr (op.init outSr)
                    (chunks.filter (fun c => !c.isEmpty))).1]) : List (List Nat)).flatten
          = ((streamLoop rs op outSr "opus" outSr (op.init outSr)
                (chunks.filter (fun c => !c.isEmpty))).2).flatten
              ++ op.finish (streamLoop rs op outSr "opus" outSr (op.init outSr)
                    (chunks.filter (fun c => !c.isEmpty))).1 := by
      by_cases ht : (op.finish (streamLoop rs op outSr "opus" outSr (op.init outSr)
          (chunks.filter (fun c => !c.isEmpty))).1).isEmpty = true
      · rw [if_pos ht, List.isEmpty_iff.mp ht, List.append_nil]
      · rw [if_neg ht, List.flatten_append, List.flatten_cons, List.flatten_nil,
          List.append_nil]
    rw [hjoin, h2, h1]
    have := hcoh (chunks.filter (fun c => !c.isEmpty))
    unfold opusIncremental at this
    rw [this, List.flatten_filter_not_isEmpty]

/-- C7 witness: the three equalities at a concrete chunk sequence, native
rate 22050, no resampling, with the concrete coherent encoder. -/
theorem C7_witness :
    ((pcmStreamFrames [[1], [2]]).flatten = pcmBytes (synthesizePcm [[1], [2]])) ∧
    ((streamFramesWavOpus rsEcho opAcc 22050 "wav" 22050 [[1], [2]]).flatten
       = pcmBytes (synthesizePcm [[1], [2]])) ∧
    ((streamFramesWavOpus rsEcho opAcc 22050 "opus" 22050 [[1], [2]]).flatten
       = opAcc.encodeOgg (synthesizePcm [[1], [2]]) 22050) := by
  obtain ⟨a, b, c⟩ := C7_amended rsEcho opAcc [[1], [2]] 22050 22050
  exact ⟨a, (b rfl).1, c rfl (opAccCoherent 22050)⟩
